import Mathlib

/-!
Verification model of `src/bayesopt/bo.py` (class `BayesOpt`).

Shallow embedding conventions:
* Locations (`Vec`) are vectors of rationals; observed values (`Val`) are
  rationals.  The numpy array shapes that do not influence any claim
  (e.g. a value stored as a shape-`(1,)` array in packed mode) are not
  modelled; a value is a scalar.
* The external collaborators stored on the object (`f`, `acq`,
  `acq_optim`, `terminate_function`) are modelled as total functions in a
  `Config` record, together with a `FailSpec` record of predicates saying
  at which calls a collaborator raises an exception.  A Python callable
  that may raise is exactly a total function plus a raise predicate on its
  arguments; `noFail` is the run in which no collaborator ever raises.
* The Python objective is one untyped callable used under two calling
  conventions (line 85: `f(*iniX.T)`, line 88 / 116 / 118:
  `f(np.atleast_2d(...))`).  Its behaviour under the unpacked call and
  under the packed call are two semantic functions `fU`, `fP` of the
  location; the stored flag `function_unpack` selects which one a call
  site uses, exactly as `self.__function_unpack` does in the source.
* Exceptions that escape `__init__` are the `Except.error` results of
  `BayesOpt.init`: no object state exists in that case, which models
  "construction fails with no partial object state retained".
* Exceptions during `run_optim` abort the loop; `run_optim` here returns
  the final memory state of the object together with `some e` for the
  exception that propagated (`none` for a normal return), since in Python
  the mutations already committed to `self` survive the raise.
-/

namespace BO

abbrev Val := ℚ
abbrev Vec := List ℚ

/-- Termination predicate type: `terminate_function(it, X_history, Y_history)`
(`bo.py` line 136). -/
abbrev TermFn := ℕ → List Vec → List Val → Bool

/-- Modelled from the spec (the `GPR` class of the external `GaussianProcess`
package is not in `src/`): the Surrogate Model Adapter "owns the full
training set (initial batch + all appended observations)".  The kernel and
alpha fields play no role in any claim and are omitted; only the training
set the adapter maintains is modelled. -/
structure GPR where
  X_train : List Vec
  Y_train : List Val
deriving DecidableEq, Repr, Inhabited

/-- Modelled from the spec: `append_data(x, y)` "incorporates one new
observation into the training set without discarding prior state"
(spec 4.2); called at `bo.py` line 119. -/
def GPR.append_data (g : GPR) (x : Vec) (y : Val) : GPR :=
  { X_train := g.X_train ++ [x], Y_train := g.Y_train ++ [y] }

/-- The constructor-time configuration of a `BayesOpt` object: the stored
collaborators and flags that `run_optim` reads but never writes
(`self.__objectivefunction`, `self.__function_unpack`, `self.__maximize`,
`self.__acq`/`self.__acq_optimizer` folded into one proposer, as the core
passes `acq` through verbatim). -/
structure Config where
  acq_optimizer : GPR → ℕ → Vec × Val
  fU : Vec → Val
  fP : Vec → Val
  function_unpack : Bool
  maximize : Bool

/-- Raise predicates for every external call site inside one loop
iteration: the acquisition optimizer (line 114), the objective
(lines 116/118), `gpr.append_data` (line 119), the tqdm progress calls
(lines 132-135) and the termination predicate (line 136). -/
structure FailSpec where
  acqFail : GPR → ℕ → Bool
  objFail : Vec → Bool
  gprFail : GPR → Vec → Val → Bool
  barFail : ℕ → Bool
  termFail : ℕ → List Vec → List Val → Bool

/-- The run in which no collaborator ever raises. -/
def noFail : FailSpec :=
  { acqFail := fun _ _ => false
    objFail := fun _ => false
    gprFail := fun _ _ _ => false
    barFail := fun _ => false
    termFail := fun _ _ _ => false }

/-- The mutable state of a `BayesOpt` object: `self.__gpr`,
`self.__X_history`, `self.__Y_history`, `self.__best_value`,
`self.__best_params` (`bo.py` lines 65-74). -/
structure BOState where
  gpr : GPR
  X_history : List Vec
  Y_history : List Val
  best_value : Option Val
  best_params : Option Vec
deriving DecidableEq, Repr, Inhabited

/-- `n_trial` property: `len(self.__Y_history)` (`bo.py` lines 172-174). -/
def n_trial (st : BOState) : ℕ := st.Y_history.length

/-- Which collaborator raised, aborting a run. -/
inductive BOError
  | acqErr | objErr | gprErr | barErr | termErr
deriving DecidableEq, Repr

/-- The best-update of `bo.py` lines 123-130:
`if self.__best_value is None or Y_obs > self.__best_value` (maximize) /
`... Y_obs < self.__best_value` (minimize); on success both
`__best_value` and `__best_params` are assigned from the same
`(Y_obs, loc)`. -/
def updateBest (mx : Bool) (bv : Option Val) (bp : Option Vec) (loc : Vec) (y : Val) :
    Option Val × Option Vec :=
  match bv with
  | none => (some y, some loc)
  | some b => if (if mx then b < y else y < b) then (some y, some loc) else (bv, bp)

/-- One loop iteration of `run_optim` (`bo.py` lines 114-130) in the case
where no collaborator raises and ignoring the termination check: propose a
location from the current surrogate (line 114), evaluate the objective
under the configured convention (lines 115-118), append to the surrogate
(line 119) and to both histories (lines 120-121), and update the best
state (lines 123-130). -/
def pureStep (C : Config) (st : BOState) (i : ℕ) : BOState :=
  let loc := (C.acq_optimizer st.gpr i).1
  let Y_obs := if C.function_unpack then C.fU loc else C.fP loc
  let ub := updateBest C.maximize st.best_value st.best_params loc Y_obs
  { gpr := st.gpr.append_data loc Y_obs
    X_history := st.X_history ++ [loc]
    Y_history := st.Y_history ++ [Y_obs]
    best_value := ub.1
    best_params := ub.2 }

/-- The state after `n` raise-free iterations starting from state `st` at
loop index `i`. -/
def pureIter (C : Config) (st : BOState) (i : ℕ) : ℕ → BOState
  | 0 => st
  | Nat.succ n => pureIter C (pureStep C st i) (i + 1) n

/-- Result of attempting one loop iteration: the object state afterwards,
the exception that propagated (if any), and whether the termination
predicate returned true. -/
structure StepResult where
  state : BOState
  error : Option BOError
  terminated : Bool
deriving DecidableEq, Repr

/-- One iteration of the `run_optim` loop body (`bo.py` lines 114-138)
with every external call allowed to raise, in source order: acquisition
optimizer (line 114), objective (lines 115-118), `append_data` (line 119;
a raise here leaves the histories and best state untouched, since the
appends at lines 120-121 come after), history appends and best update
(lines 120-130, which cannot raise), tqdm progress calls (lines 132-135,
after the state is fully committed), then the termination predicate
(line 136). -/
def boStep (C : Config) (fs : FailSpec) (term : Option TermFn) (st : BOState) (i : ℕ) :
    StepResult :=
  if fs.acqFail st.gpr i then ⟨st, some BOError.acqErr, false⟩
  else
    let loc := (C.acq_optimizer st.gpr i).1
    if fs.objFail loc then ⟨st, some BOError.objErr, false⟩
    else
      let Y_obs := if C.function_unpack then C.fU loc else C.fP loc
      if fs.gprFail st.gpr loc Y_obs then ⟨st, some BOError.gprErr, false⟩
      else
        let st2 := pureStep C st i
        if fs.barFail i then ⟨st2, some BOError.barErr, false⟩
        else
          match term with
          | none => ⟨st2, none, false⟩
          | some t =>
            if fs.termFail i st2.X_history st2.Y_history then ⟨st2, some BOError.termErr, false⟩
            else ⟨st2, none, t i st2.X_history st2.Y_history⟩

/-- The `for i in range(max_iter)` loop of `run_optim` (`bo.py`
lines 112-138), with `break` on a true termination predicate and
immediate propagation of any collaborator exception (the state already
committed to `self` survives the raise). -/
def runLoop (C : Config) (fs : FailSpec) (term : Option TermFn) :
    BOState → ℕ → ℕ → BOState × Option BOError
  | st, _, 0 => (st, none)
  | st, i, Nat.succ fuel =>
    let r := boStep C fs term st i
    match r.error with
    | some e => (r.state, some e)
    | none => if r.terminated then (r.state, none) else runLoop C fs term r.state (i + 1) fuel

/-- `BayesOpt.run_optim(max_iter, terminate_function)` (`bo.py`
lines 95-138): run the loop from index 0. -/
def run_optim (C : Config) (fs : FailSpec) (st : BOState) (max_iter : ℕ)
    (term : Option TermFn) : BOState × Option BOError :=
  runLoop C fs term st 0 max_iter

/-- A raw input array as the constructor receives it: a 1D sequence or a
2D array-like (possibly ragged). -/
inductive Raw
  | one : List Val → Raw
  | two : List (List Val) → Raw

/-- `shape[0]` of a raw array: the leading dimension. -/
def Raw.shape0 : Raw → ℕ
  | Raw.one xs => xs.length
  | Raw.two xss => xss.length

/-- Construction-time errors: `ShapeError` from `transform_data` on ragged
input, `ValueError` from the leading-dimension check (`bo.py`
lines 91-92) and from `data_checker`. -/
inductive InitError
  | shapeErr | valueErr
deriving DecidableEq, Repr

/-- Modelled from the spec (`transform_data` of the external
`GaussianProcess.utils` is not in `src/`): "Accepts a 1D sequence
(promoted to shape (n,1)) or a 2D array-like (rows = samples, cols =
features); fails with a ShapeError on ragged ... input" (spec 4.1). -/
def transform_data : Raw → Except InitError (List Vec)
  | Raw.one xs => Except.ok (xs.map fun x => [x])
  | Raw.two [] => Except.ok []
  | Raw.two (v :: rest) =>
    if rest.all fun w => w.length = v.length then Except.ok (v :: rest)
    else Except.error InitError.shapeErr

/-- Modelled from the spec (`data_checker` of the external
`GaussianProcess.utils` is not in `src/`): "fails with a ValidationError
when the sample counts of X and Y differ" (spec 4.1); called at `bo.py`
line 57. -/
def data_checker (X : List Vec) (Y : List Val) : Except InitError Unit :=
  if X.length = Y.length then Except.ok () else Except.error InitError.valueErr

/-- `BayesOpt.__calculate_initialY` (`bo.py` lines 80-93).  When
`initial_Y` is absent, the objective is evaluated at every initial
location under the configured input-passing convention (lines 83-88: the
same `if self.__function_unpack` dispatch as in the loop).  When it is
supplied, its leading dimension is checked against the initial locations
(lines 91-92) before it is kept.  Supplied values are modelled as a 1D
sequence of scalars (their canonical `(n,1)` reshape by `transform_data`
is flattened back to scalars in this model). -/
def calculate_initialY (C : Config) (initial_X : List Vec) :
    Option (List Val) → Except InitError (List Val)
  | none =>
    Except.ok (initial_X.map fun iniX =>
      if C.function_unpack then C.fU iniX else C.fP iniX)
  | some initial_Y =>
    if initial_Y.length ≠ initial_X.length then Except.error InitError.valueErr
    else Except.ok initial_Y

/-- `BayesOpt.__init__` (`bo.py` lines 51-78): transform the initial
locations (line 54), compute or validate the initial values (line 56),
check shape consistency (line 57), build the surrogate on the initial
batch (lines 65-68), and start with empty histories (lines 69-70) and an
unset best state (lines 72-74).  An error result carries no state: the
surrogate is never built and no partial object is retained. -/
def BayesOpt.init (C : Config) (initial_input : Raw) (initial_Y : Option (List Val)) :
    Except InitError BOState :=
  match transform_data initial_input with
  | Except.error e => Except.error e
  | Except.ok X =>
    match calculate_initialY C X initial_Y with
    | Except.error e => Except.error e
    | Except.ok Y =>
      match data_checker X Y with
      | Except.error e => Except.error e
      | Except.ok _ =>
        Except.ok
          { gpr := { X_train := X, Y_train := Y }
            X_history := []
            Y_history := []
            best_value := none
            best_params := none }

/-- `b` is at least as good as `y` in the configured direction:
for maximization `y ≤ b`, for minimization `b ≤ y`. -/
def asGood (mx : Bool) (b y : Val) : Prop :=
  if mx then y ≤ b else b ≤ y

instance (mx : Bool) (b y : Val) : Decidable (asGood mx b y) := by
  unfold asGood
  infer_instance

theorem asGood_refl (mx : Bool) (b : Val) : asGood mx b b := by
  unfold asGood
  cases mx <;> simp

theorem asGood_trans (mx : Bool) {a b c : Val}
    (h1 : asGood mx c b) (h2 : asGood mx b a) : asGood mx c a := by
  unfold asGood at *
  cases mx
  · simp only [Bool.false_eq_true, if_false] at *
    exact le_trans h1 h2
  · simp only [if_true] at *
    exact le_trans h2 h1

/-! ### Basic step lemmas -/

theorem updateBest_fst_isSome (mx : Bool) (bv : Option Val) (bp : Option Vec)
    (loc : Vec) (y : Val) : (updateBest mx bv bp loc y).1.isSome := by
  cases bv with
  | none => rfl
  | some b =>
    unfold updateBest
    dsimp only
    split_ifs <;> rfl

theorem updateBest_mono (mx : Bool) (bp : Option Vec) (loc : Vec) (y b : Val) :
    ∃ b2, (updateBest mx (some b) bp loc y).1 = some b2 ∧ asGood mx b2 b := by
  unfold updateBest
  dsimp only
  cases mx with
  | false =>
    by_cases hlt : y < b
    · exact ⟨y, by simp [hlt], by unfold asGood; simp [le_of_lt hlt]⟩
    · exact ⟨b, by simp [hlt], by unfold asGood; simp⟩
  | true =>
    by_cases hlt : b < y
    · exact ⟨y, by simp [hlt], by unfold asGood; simp [le_of_lt hlt]⟩
    · exact ⟨b, by simp [hlt], by unfold asGood; simp⟩

theorem boStep_cases (C : Config) (fs : FailSpec) (term : Option TermFn)
    (st : BOState) (i : ℕ) :
    boStep C fs term st i = ⟨st, some BOError.acqErr, false⟩ ∨
    boStep C fs term st i = ⟨st, some BOError.objErr, false⟩ ∨
    boStep C fs term st i = ⟨st, some BOError.gprErr, false⟩ ∨
    boStep C fs term st i = ⟨pureStep C st i, some BOError.barErr, false⟩ ∨
    boStep C fs term st i = ⟨pureStep C st i, some BOError.termErr, false⟩ ∨
    ∃ b, boStep C fs term st i = ⟨pureStep C st i, none, b⟩ := by
  unfold boStep
  dsimp only
  cases h1 : fs.acqFail st.gpr i
  case true => exact Or.inl rfl
  case false =>
    cases h2 : fs.objFail (C.acq_optimizer st.gpr i).1
    case true => exact Or.inr (Or.inl rfl)
    case false =>
      cases h3 : fs.gprFail st.gpr (C.acq_optimizer st.gpr i).1
          (if C.function_unpack then C.fU (C.acq_optimizer st.gpr i).1
            else C.fP (C.acq_optimizer st.gpr i).1)
      case true => exact Or.inr (Or.inr (Or.inl rfl))
      case false =>
        cases h4 : fs.barFail i
        case true => exact Or.inr (Or.inr (Or.inr (Or.inl rfl)))
        case false =>
          cases term with
          | none =>
            exact Or.inr (Or.inr (Or.inr (Or.inr (Or.inr ⟨false, rfl⟩))))
          | some t =>
            cases h5 : fs.termFail i (pureStep C st i).X_history (pureStep C st i).Y_history
            case true =>
              refine Or.inr (Or.inr (Or.inr (Or.inr (Or.inl ?_))))
              simp [h5]
            case false =>
              refine Or.inr (Or.inr (Or.inr (Or.inr (Or.inr
                ⟨t i (pureStep C st i).X_history (pureStep C st i).Y_history, ?_⟩))))
              simp [h5]

theorem boStep_state_eq_of_error_none (C : Config) (fs : FailSpec) (term : Option TermFn)
    (st : BOState) (i : ℕ) (h : (boStep C fs term st i).error = none) :
    (boStep C fs term st i).state = pureStep C st i := by
  rcases boStep_cases C fs term st i with h' | h' | h' | h' | h' | ⟨b, h'⟩ <;>
    rw [h'] <;> rw [h'] at h <;> simp_all

theorem boStep_state_eq_of_barErr (C : Config) (fs : FailSpec) (term : Option TermFn)
    (st : BOState) (i : ℕ) (h : (boStep C fs term st i).error = some BOError.barErr) :
    (boStep C fs term st i).state = pureStep C st i := by
  rcases boStep_cases C fs term st i with h' | h' | h' | h' | h' | ⟨b, h'⟩ <;>
    rw [h'] <;> rw [h'] at h <;> simp_all

theorem boStep_state_or (C : Config) (fs : FailSpec) (term : Option TermFn)
    (st : BOState) (i : ℕ) :
    (boStep C fs term st i).state = st ∨ (boStep C fs term st i).state = pureStep C st i := by
  rcases boStep_cases C fs term st i with h' | h' | h' | h' | h' | ⟨b, h'⟩ <;> rw [h']
  · exact Or.inl rfl
  · exact Or.inl rfl
  · exact Or.inl rfl
  · exact Or.inr rfl
  · exact Or.inr rfl
  · exact Or.inr rfl

/-- With no raising collaborator, one loop iteration is exactly a pure
step, and the loop breaks precisely when the termination predicate,
evaluated after the observation has been recorded, returns true. -/
theorem boStep_noFail (C : Config) (term : Option TermFn) (st : BOState) (i : ℕ) :
    boStep C noFail term st i =
      ⟨pureStep C st i, none,
        match term with
        | none => false
        | some t => t i (pureStep C st i).X_history (pureStep C st i).Y_history⟩ := by
  cases term <;> rfl

/-! ### Loop-as-pure-prefix lemmas -/

theorem runLoop_pure_trunc (C : Config) (fs : FailSpec) (term : Option TermFn) :
    ∀ (fuel : ℕ) (st : BOState) (i : ℕ),
      ∃ k ≤ fuel, (runLoop C fs term st i fuel).1 = pureIter C st i k := by
  intro fuel
  induction fuel with
  | zero => exact fun st i => ⟨0, Nat.le_refl 0, rfl⟩
  | succ n ih =>
    intro st i
    show ∃ k ≤ n + 1,
      (match (boStep C fs term st i).error with
        | some e => ((boStep C fs term st i).state, some e)
        | none =>
          if (boStep C fs term st i).terminated then ((boStep C fs term st i).state, none)
          else runLoop C fs term (boStep C fs term st i).state (i + 1) n).1 =
        pureIter C st i k
    rcases h : (boStep C fs term st i).error with _ | e
    · have hst := boStep_state_eq_of_error_none C fs term st i h
      by_cases ht : (boStep C fs term st i).terminated = true
      · refine ⟨1, by omega, ?_⟩
        rw [if_pos ht]
        dsimp only
        rw [hst]
        rfl
      · obtain ⟨k, hk, heq⟩ := ih (boStep C fs term st i).state (i + 1)
        refine ⟨k + 1, by omega, ?_⟩
        rw [if_neg ht, heq, hst]
        rfl
    · rcases boStep_state_or C fs term st i with hst | hst
      · exact ⟨0, by omega, by simp only [hst]; rfl⟩
      · exact ⟨1, by omega, by simp only [hst]; rfl⟩

theorem run_optim_pure_trunc (C : Config) (fs : FailSpec) (term : Option TermFn)
    (st : BOState) (max_iter : ℕ) :
    ∃ k ≤ max_iter, (run_optim C fs st max_iter term).1 = pureIter C st 0 k :=
  runLoop_pure_trunc C fs term max_iter st 0

/-! ### Pure-iteration structural lemmas -/

theorem pureStep_X_history (C : Config) (st : BOState) (i : ℕ) :
    (pureStep C st i).X_history = st.X_history ++ [(C.acq_optimizer st.gpr i).1] := rfl

theorem pureIter_length (C : Config) :
    ∀ (n : ℕ) (st : BOState) (i : ℕ),
      (pureIter C st i n).X_history.length = st.X_history.length + n ∧
      (pureIter C st i n).Y_history.length = st.Y_history.length + n := by
  intro n
  induction n with
  | zero => exact fun st i => ⟨rfl, rfl⟩
  | succ m ih =>
    intro st i
    have h := ih (pureStep C st i) (i + 1)
    constructor
    · rw [show pureIter C st i (m + 1) = pureIter C (pureStep C st i) (i + 1) m from rfl,
        h.1]
      simp [pureStep]
      omega
    · rw [show pureIter C st i (m + 1) = pureIter C (pureStep C st i) (i + 1) m from rfl,
        h.2]
      simp [pureStep]
      omega

theorem pureIter_extendsHist (C : Config) :
    ∀ (n : ℕ) (st : BOState) (i : ℕ),
      st.X_history <+: (pureIter C st i n).X_history ∧
      st.Y_history <+: (pureIter C st i n).Y_history := by
  intro n
  induction n with
  | zero => exact fun st i => ⟨List.prefix_refl _, List.prefix_refl _⟩
  | succ m ih =>
    intro st i
    have h := ih (pureStep C st i) (i + 1)
    refine ⟨List.IsPrefix.trans ?_ h.1, List.IsPrefix.trans ?_ h.2⟩
    · exact ⟨[(C.acq_optimizer st.gpr i).1], rfl⟩
    · exact ⟨[if C.function_unpack then C.fU (C.acq_optimizer st.gpr i).1
        else C.fP (C.acq_optimizer st.gpr i).1], rfl⟩

theorem pureIter_gpr_extends (C : Config) :
    ∀ (n : ℕ) (st : BOState) (i : ℕ),
      st.gpr.X_train <+: (pureIter C st i n).gpr.X_train ∧
      st.gpr.Y_train <+: (pureIter C st i n).gpr.Y_train := by
  intro n
  induction n with
  | zero => exact fun st i => ⟨List.prefix_refl _, List.prefix_refl _⟩
  | succ m ih =>
    intro st i
    have h := ih (pureStep C st i) (i + 1)
    refine ⟨List.IsPrefix.trans ?_ h.1, List.IsPrefix.trans ?_ h.2⟩
    · exact ⟨[(C.acq_optimizer st.gpr i).1], rfl⟩
    · exact ⟨[if C.function_unpack then C.fU (C.acq_optimizer st.gpr i).1
        else C.fP (C.acq_optimizer st.gpr i).1], rfl⟩

theorem pureStep_best_isSome (C : Config) (st : BOState) (i : ℕ) :
    (pureStep C st i).best_value.isSome :=
  updateBest_fst_isSome _ _ _ _ _

theorem pureIter_best_isSome (C : Config) :
    ∀ (n : ℕ) (st : BOState) (i : ℕ), st.best_value.isSome →
      (pureIter C st i n).best_value.isSome := by
  intro n
  induction n with
  | zero => exact fun st i h => h
  | succ m ih =>
    intro st i _
    exact ih (pureStep C st i) (i + 1) (pureStep_best_isSome C st i)

theorem pureStep_best_mono (C : Config) (st : BOState) (i : ℕ) (b : Val)
    (h : st.best_value = some b) :
    ∃ b2, (pureStep C st i).best_value = some b2 ∧ asGood C.maximize b2 b := by
  have hv : (pureStep C st i).best_value =
      (updateBest C.maximize st.best_value st.best_params
        (C.acq_optimizer st.gpr i).1
        (if C.function_unpack then C.fU (C.acq_optimizer st.gpr i).1
          else C.fP (C.acq_optimizer st.gpr i).1)).1 := rfl
  rw [hv, h]
  exact updateBest_mono _ _ _ _ _

theorem pureIter_best_mono (C : Config) :
    ∀ (n : ℕ) (st : BOState) (i : ℕ) (b : Val), st.best_value = some b →
      ∃ b2, (pureIter C st i n).best_value = some b2 ∧ asGood C.maximize b2 b := by
  intro n
  induction n with
  | zero =>
    intro st i b h
    exact ⟨b, h, asGood_refl _ _⟩
  | succ m ih =>
    intro st i b h
    obtain ⟨b1, hb1, hg1⟩ := pureStep_best_mono C st i b h
    obtain ⟨b2, hb2, hg2⟩ := ih (pureStep C st i) (i + 1) b1 hb1
    exact ⟨b2, hb2, asGood_trans C.maximize hg2 hg1⟩

/-- Any property of the state preserved by a raise-free iteration holds at
the end of any run (even an aborted one), since every run leaves the state
at some pure prefix of the iteration sequence. -/
theorem pureIter_preserves (C : Config) (P : BOState → Prop)
    (hstep : ∀ st i, P st → P (pureStep C st i)) :
    ∀ (n : ℕ) (st : BOState) (i : ℕ), P st → P (pureIter C st i n) := by
  intro n
  induction n with
  | zero => exact fun st i h => h
  | succ m ih => exact fun st i h => ih (pureStep C st i) (i + 1) (hstep st i h)

theorem run_preserves (C : Config) (fs : FailSpec) (term : Option TermFn)
    (st : BOState) (n : ℕ) (P : BOState → Prop)
    (hstep : ∀ st i, P st → P (pureStep C st i)) (h : P st) :
    P ((run_optim C fs st n term).1) := by
  obtain ⟨k, _, heq⟩ := run_optim_pure_trunc C fs term st n
  rw [heq]
  exact pureIter_preserves C P hstep k st 0 h

/-! ### Loop unfolding and exact iteration count in a raise-free run -/

theorem runLoop_succ (C : Config) (fs : FailSpec) (term : Option TermFn)
    (st : BOState) (i fuel : ℕ) :
    runLoop C fs term st i (fuel + 1) =
      match (boStep C fs term st i).error with
      | some e => ((boStep C fs term st i).state, some e)
      | none =>
        if (boStep C fs term st i).terminated then ((boStep C fs term st i).state, none)
        else runLoop C fs term (boStep C fs term st i).state (i + 1) fuel := rfl

/-- Whether, in the raise-free run starting from state `st` at loop index
`i`, the termination predicate fires at the end of the `k`-th iteration
(0-based).  The predicate is handed the histories of `pureIter (k+1)`:
the observation of iteration `k` is recorded before the check (`bo.py`
lines 119-121 before line 136). -/
def trigger (C : Config) (term : Option TermFn) (st : BOState) (i k : ℕ) : Bool :=
  match term with
  | none => false
  | some t =>
    t (i + k) (pureIter C st i (k + 1)).X_history (pureIter C st i (k + 1)).Y_history

theorem trigger_shift (C : Config) (term : Option TermFn) (st : BOState) (i k : ℕ) :
    trigger C term (pureStep C st i) (i + 1) k = trigger C term st i (k + 1) := by
  cases term with
  | none => rfl
  | some t =>
    unfold trigger
    have hidx : (i + 1) + k = i + (k + 1) := by omega
    rw [hidx]
    rfl

theorem runLoop_noFail_no_trigger (C : Config) (term : Option TermFn) :
    ∀ (fuel : ℕ) (st : BOState) (i : ℕ),
      (∀ k < fuel, trigger C term st i k = false) →
      runLoop C noFail term st i fuel = (pureIter C st i fuel, none) := by
  intro fuel
  induction fuel with
  | zero => exact fun st i _ => rfl
  | succ n ih =>
    intro st i h
    have h0 : trigger C term st i 0 = false := h 0 (Nat.succ_pos n)
    have h' : ∀ k < n, trigger C term (pureStep C st i) (i + 1) k = false := by
      intro k hk
      rw [trigger_shift]
      exact h (k + 1) (by omega)
    have hrec := ih (pureStep C st i) (i + 1) h'
    rw [runLoop_succ, boStep_noFail]
    dsimp only
    cases term with
    | none =>
      rw [if_neg (by simp)]
      exact hrec
    | some t =>
      have h0' : t i (pureStep C st i).X_history (pureStep C st i).Y_history = false := h0
      rw [if_neg (by simp [h0'])]
      exact hrec

theorem runLoop_noFail_trigger (C : Config) (term : Option TermFn) :
    ∀ (fuel k0 : ℕ) (st : BOState) (i : ℕ),
      k0 < fuel → trigger C term st i k0 = true →
      (∀ j < k0, trigger C term st i j = false) →
      runLoop C noFail term st i fuel = (pureIter C st i (k0 + 1), none) := by
  intro fuel
  induction fuel with
  | zero =>
    intro k0 st i hk
    omega
  | succ n ih =>
    intro k0 st i hk htrig hbefore
    rw [runLoop_succ, boStep_noFail]
    dsimp only
    cases k0 with
    | zero =>
      cases term with
      | none => exact absurd htrig (by simp [trigger])
      | some t =>
        have h0' : t i (pureStep C st i).X_history (pureStep C st i).Y_history = true := htrig
        rw [if_pos (by simp [h0'])]
        rfl
    | succ j =>
      have h0 : trigger C term st i 0 = false := hbefore 0 (Nat.succ_pos j)
      have htrig' : trigger C term (pureStep C st i) (i + 1) j = true := by
        rw [trigger_shift]
        exact htrig
      have hbefore' : ∀ l < j, trigger C term (pureStep C st i) (i + 1) l = false := by
        intro l hl
        rw [trigger_shift]
        exact hbefore (l + 1) (by omega)
      have hrec := ih j (pureStep C st i) (i + 1) (by omega) htrig' hbefore'
      cases term with
      | none =>
        rw [if_neg (by simp)]
        exact hrec
      | some t =>
        have h0' : t i (pureStep C st i).X_history (pureStep C st i).Y_history = false := h0
        rw [if_neg (by simp [h0'])]
        exact hrec

/-! ### Constructor inversion -/

theorem init_ok_state (C : Config) (raw : Raw) (iy : Option (List Val)) (st : BOState)
    (h : BayesOpt.init C raw iy = Except.ok st) :
    st.X_history = [] ∧ st.Y_history = [] ∧
    st.best_value = none ∧ st.best_params = none := by
  unfold BayesOpt.init at h
  cases h1 : transform_data raw with
  | error e => rw [h1] at h; cases h
  | ok X =>
    rw [h1] at h
    dsimp only at h
    cases h2 : calculate_initialY C X iy with
    | error e => rw [h2] at h; cases h
    | ok Y =>
      rw [h2] at h
      dsimp only at h
      cases h3 : data_checker X Y with
      | error e => rw [h3] at h; cases h
      | ok u =>
        rw [h3] at h
        dsimp only at h
        cases h
        exact ⟨rfl, rfl, rfl, rfl⟩

/-! ### Strict-improvement order facts -/

theorem asGood_of_strict (mx : Bool) {b y : Val}
    (h : if mx = true then b < y else y < b) : asGood mx y b := by
  unfold asGood
  cases mx
  · simp only [Bool.false_eq_true, if_false] at *
    exact le_of_lt h
  · simp only [if_true] at *
    exact le_of_lt h

theorem asGood_of_not_strict (mx : Bool) {b y : Val}
    (h : ¬ if mx = true then b < y else y < b) : asGood mx b y := by
  unfold asGood
  cases mx
  · simp only [Bool.false_eq_true, if_false] at *
    exact le_of_not_lt h
  · simp only [if_true] at *
    exact le_of_not_lt h

/-! ### The best state is the extremum of the value history -/

/-- Invariant tying the best state to the value history: an unset best
means no loop observation yet, and a set best is a recorded loop value at
least as good (in the configured direction) as every recorded loop value.
Note the initial-batch values play no role. -/
def extremalInv (mx : Bool) (st : BOState) : Prop :=
  (st.best_value = none → st.Y_history = []) ∧
  ∀ b, st.best_value = some b → b ∈ st.Y_history ∧ ∀ y ∈ st.Y_history, asGood mx b y

theorem updateBest_extremal (mx : Bool) (bp : Option Vec) (ys : List Val)
    (loc : Vec) (yobs : Val) (bv : Option Val)
    (hnone : bv = none → ys = [])
    (hsome : ∀ b, bv = some b → b ∈ ys ∧ ∀ y ∈ ys, asGood mx b y) :
    ∀ b2, (updateBest mx bv bp loc yobs).1 = some b2 →
      b2 ∈ ys ++ [yobs] ∧ ∀ y ∈ ys ++ [yobs], asGood mx b2 y := by
  intro b2 hb2
  cases bv with
  | none =>
    rw [hnone rfl]
    rw [← Option.some.inj hb2]
    constructor
    · simp
    · intro y hy
      simp only [List.nil_append, List.mem_singleton] at hy
      subst hy
      exact asGood_refl mx _
  | some b =>
    obtain ⟨hmem, hall⟩ := hsome b rfl
    by_cases hbet : if mx = true then b < yobs else yobs < b
    · have hupd : (updateBest mx (some b) bp loc yobs).1 = some yobs := by
        unfold updateBest
        dsimp only
        rw [if_pos hbet]
      rw [hupd] at hb2
      rw [← Option.some.inj hb2]
      constructor
      · simp
      · intro y hy
        rcases List.mem_append.mp hy with hy | hy
        · exact asGood_trans mx (asGood_of_strict mx hbet) (hall y hy)
        · rw [List.mem_singleton] at hy
          subst hy
          exact asGood_refl mx _
    · have hupd : (updateBest mx (some b) bp loc yobs).1 = some b := by
        unfold updateBest
        dsimp only
        rw [if_neg hbet]
      rw [hupd] at hb2
      rw [← Option.some.inj hb2]
      constructor
      · exact List.mem_append.mpr (Or.inl hmem)
      · intro y hy
        rcases List.mem_append.mp hy with hy | hy
        · exact hall y hy
        · rw [List.mem_singleton] at hy
          subst hy
          exact asGood_of_not_strict mx hbet

theorem extremalInv_pureStep (C : Config) (st : BOState) (i : ℕ)
    (h : extremalInv C.maximize st) : extremalInv C.maximize (pureStep C st i) := by
  obtain ⟨hnone, hsome⟩ := h
  constructor
  · intro hbv
    have hs := pureStep_best_isSome C st i
    rw [hbv] at hs
    simp at hs
  · intro b2 hb2
    exact updateBest_extremal C.maximize st.best_params st.Y_history
      (C.acq_optimizer st.gpr i).1
      (if C.function_unpack then C.fU (C.acq_optimizer st.gpr i).1
        else C.fP (C.acq_optimizer st.gpr i).1)
      st.best_value hnone hsome b2 hb2

/-! ### The best state is always a recorded observation -/

/-- Invariant tying the best state to both histories: whenever the best
value is set, the best location is set too, and the pair is a genuine
recorded observation at some common history index. -/
def pairedInv (st : BOState) : Prop :=
  st.X_history.length = st.Y_history.length ∧
  ∀ b, st.best_value = some b → ∃ p, st.best_params = some p ∧
    ∃ j, st.X_history.get? j = some p ∧ st.Y_history.get? j = some b

theorem updateBest_paired (mx : Bool) (xs : List Vec) (ys : List Val)
    (hlen : xs.length = ys.length) (bv : Option Val) (bp : Option Vec)
    (hsome : ∀ b, bv = some b → ∃ p, bp = some p ∧
      ∃ j, xs.get? j = some p ∧ ys.get? j = some b)
    (loc : Vec) (yobs : Val) :
    ∀ b2, (updateBest mx bv bp loc yobs).1 = some b2 →
      ∃ p, (updateBest mx bv bp loc yobs).2 = some p ∧
        ∃ j, (xs ++ [loc]).get? j = some p ∧ (ys ++ [yobs]).get? j = some b2 := by
  intro b2 hb2
  cases bv with
  | none =>
    rw [← Option.some.inj hb2]
    refine ⟨loc, rfl, xs.length, List.get?_concat_length xs loc, ?_⟩
    rw [hlen]
    exact List.get?_concat_length ys yobs
  | some b =>
    by_cases hbet : if mx = true then b < yobs else yobs < b
    · have hupd : updateBest mx (some b) bp loc yobs = (some yobs, some loc) := by
        unfold updateBest
        dsimp only
        rw [if_pos hbet]
      rw [hupd] at hb2 ⊢
      rw [← Option.some.inj hb2]
      refine ⟨loc, rfl, xs.length, List.get?_concat_length xs loc, ?_⟩
      rw [hlen]
      exact List.get?_concat_length ys yobs
    · have hupd : updateBest mx (some b) bp loc yobs = (some b, bp) := by
        unfold updateBest
        dsimp only
        rw [if_neg hbet]
      rw [hupd] at hb2 ⊢
      rw [← Option.some.inj hb2]
      obtain ⟨p, hp, j, hjX, hjY⟩ := hsome b rfl
      have hjlt : j < xs.length := by
        rcases List.get?_eq_some.mp hjX with ⟨hlt, _⟩
        exact hlt
      have hjltY : j < ys.length := by
        rw [← hlen]
        exact hjlt
      refine ⟨p, hp, j, ?_, ?_⟩
      · rw [List.get?_append hjlt]
        exact hjX
      · rw [List.get?_append hjltY]
        exact hjY

theorem pairedInv_pureStep (C : Config) (st : BOState) (i : ℕ)
    (h : pairedInv st) : pairedInv (pureStep C st i) := by
  obtain ⟨hlen, hsome⟩ := h
  constructor
  · show (st.X_history ++ [(C.acq_optimizer st.gpr i).1]).length = _
    simp [pureStep, hlen]
  · intro b2 hb2
    exact updateBest_paired C.maximize st.X_history st.Y_history hlen
      st.best_value st.best_params hsome
      (C.acq_optimizer st.gpr i).1
      (if C.function_unpack then C.fU (C.acq_optimizer st.gpr i).1
        else C.fP (C.acq_optimizer st.gpr i).1) b2 hb2

/-! ### The surrogate training set is the initial batch plus the history -/

/-- Invariant: the surrogate's training set is exactly the initial batch
followed by the recorded history, in observation order. -/
def trainInv (X0 : List Vec) (Y0 : List Val) (st : BOState) : Prop :=
  st.gpr.X_train = X0 ++ st.X_history ∧ st.gpr.Y_train = Y0 ++ st.Y_history

theorem trainInv_pureStep (C : Config) (X0 : List Vec) (Y0 : List Val)
    (st : BOState) (i : ℕ) (h : trainInv X0 Y0 st) :
    trainInv X0 Y0 (pureStep C st i) := by
  obtain ⟨hX, hY⟩ := h
  constructor
  · show st.gpr.X_train ++ [(C.acq_optimizer st.gpr i).1] = X0 ++ (st.X_history ++ _)
    rw [hX, List.append_assoc]
  · show st.gpr.Y_train ++ [_] = Y0 ++ (st.Y_history ++ _)
    rw [hY, List.append_assoc]

theorem pureIter_succ_right (C : Config) :
    ∀ (k : ℕ) (st : BOState) (i : ℕ),
      pureIter C st i (k + 1) = pureStep C (pureIter C st i k) (i + k) := by
  intro k
  induction k with
  | zero => exact fun st i => rfl
  | succ m ih =>
    intro st i
    show pureIter C (pureStep C st i) (i + 1) (m + 1) = _
    rw [ih (pureStep C st i) (i + 1)]
    have hidx : (i + 1) + m = i + (m + 1) := by omega
    rw [hidx]
    rfl

/-! ### Concrete instances used in witnesses and counterexamples -/

/-- A concrete configuration: minimize, unpacked mode, acquisition
optimizer proposing location `[i+1]` at iteration `i`, objective
constantly 5 under either calling convention. -/
def cexConf : Config :=
  { acq_optimizer := fun _ i => ([(i : ℚ) + 1], 0)
    fU := fun _ => 5
    fP := fun _ => 5
    function_unpack := true
    maximize := false }

/-- The state `BayesOpt.init cexConf (Raw.two [[0]]) (some [0])` builds:
initial batch `X = [[0]]`, `Y = [0]`, empty histories, unset best. -/
def cexSt0 : BOState :=
  { gpr := { X_train := [[0]], Y_train := [0] }
    X_history := []
    Y_history := []
    best_value := none
    best_params := none }

/-- A state with the best state already set (as after one iteration of
`cexConf` from `cexSt0`). -/
def cexStBest : BOState :=
  { gpr := { X_train := [[0]], Y_train := [0] }
    X_history := [[1]]
    Y_history := [5]
    best_value := some 5
    best_params := some [1] }

/-- Failure specification in which the objective always raises. -/
def cexObjFail : FailSpec := { noFail with objFail := fun _ => true }

/-- Failure specification in which the progress reporter always raises. -/
def cexBarFS : FailSpec := { noFail with barFail := fun _ => true }

/-- Termination predicate that fires once two values are recorded. -/
def cexTerm : TermFn := fun _ _ ys => decide (2 ≤ ys.length)

/-- A 5-row, 2-column initial location array, as in the claimed shapes
`(5, 2)`. -/
def cexX52 : List (List ℚ) := [[0, 0], [1, 0], [2, 0], [3, 0], [4, 0]]

/-! ### Claim C1 -/

/-- Claim C1 as stated is false on the code: the best state is computed
from loop observations only (`bo.py` lines 123-130 compare `Y_obs` with
`__best_value`, which starts `None` at line 73 and is never seeded from
the initial batch), so the initial-batch value 0 is strictly better
(minimize mode) than the run's best value 5: the best value is not the
extremum over the union, and is not at least as good as every
initial-batch value. -/
theorem C1_counterexample :
    BayesOpt.init cexConf (Raw.two [[0]]) (some [0]) = Except.ok cexSt0 ∧
    (run_optim cexConf noFail cexSt0 1 none).1.best_value = some 5 ∧
    (0 : ℚ) ∈ cexSt0.gpr.Y_train ∧
    ¬ asGood cexConf.maximize 5 0 := by
  refine ⟨rfl, rfl, ?_, ?_⟩
  · decide
  · decide

/-- Claim C1 (amended): after `run_optim` the exposed best value is the
true extremum, per the direction flag, of the loop value History alone —
it is a recorded History value at least as good as every recorded History
value (brute-force characterization) — but the initial-batch values are
not considered. -/
theorem C1_best_is_extremum_of_history (C : Config) (raw : Raw) (iy : Option (List Val))
    (st0 : BOState) (fs : FailSpec) (term : Option TermFn) (max_iter : ℕ)
    (hinit : BayesOpt.init C raw iy = Except.ok st0) :
    (run_optim C fs st0 max_iter term).1.Y_history ≠ [] →
      ∃ b, (run_optim C fs st0 max_iter term).1.best_value = some b ∧
        b ∈ (run_optim C fs st0 max_iter term).1.Y_history ∧
        ∀ y ∈ (run_optim C fs st0 max_iter term).1.Y_history, asGood C.maximize b y := by
  intro hne
  obtain ⟨hX0, hY0, hbv0, hbp0⟩ := init_ok_state C raw iy st0 hinit
  have hinv : extremalInv C.maximize ((run_optim C fs st0 max_iter term).1) := by
    apply run_preserves C fs term st0 max_iter (extremalInv C.maximize)
      (extremalInv_pureStep C)
    constructor
    · intro _
      exact hY0
    · intro b hb
      rw [hbv0] at hb
      cases hb
  obtain ⟨hnone, hsome⟩ := hinv
  cases hbv : (run_optim C fs st0 max_iter term).1.best_value with
  | none => exact absurd (hnone hbv) hne
  | some b =>
    obtain ⟨hmem, hall⟩ := hsome b hbv
    exact ⟨b, rfl, hmem, hall⟩

theorem C1_witness :
    (run_optim cexConf noFail cexSt0 1 none).1.Y_history ≠ [] ∧
    ∃ b, (run_optim cexConf noFail cexSt0 1 none).1.best_value = some b ∧
      b ∈ (run_optim cexConf noFail cexSt0 1 none).1.Y_history ∧
      ∀ y ∈ (run_optim cexConf noFail cexSt0 1 none).1.Y_history,
        asGood cexConf.maximize b y :=
  ⟨by decide,
   C1_best_is_extremum_of_history cexConf (Raw.two [[0]]) (some [0]) cexSt0 noFail
     none 1 rfl (by decide)⟩

/-! ### Claim C2 -/

/-- Claim C2: in a raise-free run from a freshly constructed object, the
length of History (and `n_trial`, which exposes it) is
`min max_iter (k0+1)` when the termination predicate first returns true
at iteration index `k0`, and `max_iter` when it never returns true.  The
final state is the pure iteration prefix of that length, so the
triggering iteration's observation is itself recorded in History and the
surrogate — and by the definition of `trigger` the predicate is evaluated
on the histories that already contain that observation. -/
theorem C2_history_length (C : Config) (raw : Raw) (iy : Option (List Val))
    (st0 : BOState) (term : Option TermFn) (max_iter k0 : ℕ)
    (hinit : BayesOpt.init C raw iy = Except.ok st0) :
    (trigger C term st0 0 k0 = true →
      (∀ j < k0, trigger C term st0 0 j = false) →
      n_trial (run_optim C noFail st0 max_iter term).1 = min max_iter (k0 + 1) ∧
      (k0 < max_iter →
        run_optim C noFail st0 max_iter term = (pureIter C st0 0 (k0 + 1), none))) ∧
    ((∀ k, trigger C term st0 0 k = false) →
      n_trial (run_optim C noFail st0 max_iter term).1 = max_iter ∧
      run_optim C noFail st0 max_iter term = (pureIter C st0 0 max_iter, none)) := by
  obtain ⟨hX0, hY0, _, _⟩ := init_ok_state C raw iy st0 hinit
  have hlen : ∀ n, n_trial (pureIter C st0 0 n) = n := by
    intro n
    have hl := (pureIter_length C n st0 0).2
    unfold n_trial
    rw [hl, hY0]
    simp
  constructor
  · intro htrig hbefore
    by_cases hcase : k0 < max_iter
    · have hrun := runLoop_noFail_trigger C term max_iter k0 st0 0 hcase htrig hbefore
      constructor
      · show n_trial (runLoop C noFail term st0 0 max_iter).1 = _
        rw [hrun]
        dsimp only
        rw [hlen (k0 + 1)]
        omega
      · intro _
        exact hrun
    · have hnb : ∀ k < max_iter, trigger C term st0 0 k = false := by
        intro k hk
        exact hbefore k (by omega)
      have hrun := runLoop_noFail_no_trigger C term max_iter st0 0 hnb
      constructor
      · show n_trial (runLoop C noFail term st0 0 max_iter).1 = _
        rw [hrun]
        dsimp only
        rw [hlen max_iter]
        omega
      · intro hlt
        exact absurd hlt hcase
  · intro hnever
    have hrun := runLoop_noFail_no_trigger C term max_iter st0 0 (fun k _ => hnever k)
    constructor
    · show n_trial (runLoop C noFail term st0 0 max_iter).1 = _
      rw [hrun]
      dsimp only
      rw [hlen max_iter]
    · exact hrun

theorem C2_witness :
    n_trial (run_optim cexConf noFail cexSt0 5 (some cexTerm)).1 = min 5 2 ∧
    run_optim cexConf noFail cexSt0 5 (some cexTerm) =
      (pureIter cexConf cexSt0 0 2, none) :=
  ⟨((C2_history_length cexConf (Raw.two [[0]]) (some [0]) cexSt0 (some cexTerm) 5 1
      rfl).1 (by decide) (by decide)).1,
   ((C2_history_length cexConf (Raw.two [[0]]) (some [0]) cexSt0 (some cexTerm) 5 1
      rfl).1 (by decide) (by decide)).2 (by decide)⟩

/-! ### Claim C3 -/

/-- Claim C3: the best state is updated only on strict improvement — the
code's comparison (`bo.py` lines 124/128) leaves both the stored best
value and best location unchanged unless the new value is strictly
greater (maximize) resp. strictly less (minimize); in particular an
observation tying the current best never replaces it; and a non-empty
best state is never reset to empty by any run. -/
theorem C3_strict_improvement (mx : Bool) (bp : Option Vec) (loc : Vec) (y b : Val)
    (C : Config) (fs : FailSpec) (term : Option TermFn) (st : BOState) (n : ℕ) :
    (¬ (if mx = true then b < y else y < b) →
      updateBest mx (some b) bp loc y = (some b, bp)) ∧
    ((if mx = true then b < y else y < b) →
      updateBest mx (some b) bp loc y = (some y, some loc)) ∧
    (y = b → updateBest mx (some b) bp loc y = (some b, bp)) ∧
    (st.best_value.isSome = true →
      (run_optim C fs st n term).1.best_value.isSome = true) := by
  refine ⟨?_, ?_, ?_, ?_⟩
  · intro hbet
    unfold updateBest
    dsimp only
    rw [if_neg hbet]
  · intro hbet
    unfold updateBest
    dsimp only
    rw [if_pos hbet]
  · intro hy
    subst hy
    unfold updateBest
    dsimp only
    rw [if_neg (by cases mx <;> simp)]
  · intro hs
    exact run_preserves C fs term st n (fun s => s.best_value.isSome = true)
      (fun s i _ => pureStep_best_isSome C s i) hs

theorem C3_witness :
    updateBest false (some 3) (some [9]) [7] 3 = (some 3, some [9]) ∧
    (run_optim cexConf noFail cexStBest 2 none).1.best_value.isSome = true :=
  ⟨(C3_strict_improvement false (some [9]) [7] 3 3 cexConf noFail none cexStBest
      2).2.2.1 rfl,
   (C3_strict_improvement false (some [9]) [7] 3 3 cexConf noFail none cexStBest
      2).2.2.2 rfl⟩

/-! ### Claim C4 -/

/-- Claim C4: supplied initial values whose leading dimension differs
from the initial locations' leading dimension make construction fail
with the configuration error (the `ValueError` of `bo.py` lines 91-92)
and produce no object state at all — in particular no surrogate is
built, since the state carrying the fitted surrogate is only formed
after the check passes; matching counts raise nothing and construction
succeeds with the surrogate fitted on the initial batch. -/
theorem C4_shape_validation (C : Config) (xss : List (List Val)) (ys : List Val)
    (X : List Vec) (htr : transform_data (Raw.two xss) = Except.ok X) :
    (ys.length ≠ X.length →
      BayesOpt.init C (Raw.two xss) (some ys) = Except.error InitError.valueErr) ∧
    (ys.length = X.length →
      BayesOpt.init C (Raw.two xss) (some ys) =
        Except.ok
          { gpr := { X_train := X, Y_train := ys }
            X_history := []
            Y_history := []
            best_value := none
            best_params := none }) := by
  constructor
  · intro hne
    unfold BayesOpt.init
    rw [htr]
    dsimp only
    unfold calculate_initialY
    dsimp only
    rw [if_pos hne]
  · intro heq
    unfold BayesOpt.init
    rw [htr]
    dsimp only
    unfold calculate_initialY
    dsimp only
    rw [if_neg (fun hcon => hcon heq)]
    dsimp only
    unfold data_checker
    rw [if_pos heq.symm]

theorem C4_witness :
    BayesOpt.init cexConf (Raw.two cexX52) (some [0, 0, 0, 0]) =
      Except.error InitError.valueErr ∧
    BayesOpt.init cexConf (Raw.two cexX52) (some [0, 0, 0, 0, 0]) =
      Except.ok
        { gpr := { X_train := cexX52, Y_train := [0, 0, 0, 0, 0] }
          X_history := []
          Y_history := []
          best_value := none
          best_params := none } :=
  ⟨(C4_shape_validation cexConf cexX52 [0, 0, 0, 0] cexX52 rfl).1 (by decide),
   (C4_shape_validation cexConf cexX52 [0, 0, 0, 0, 0] cexX52 rfl).2 rfl⟩

/-! ### Claim C5 -/

/-- Claim C5: the input-passing convention chosen at construction is
applied identically when computing default initial values
(`__calculate_initialY`, `bo.py` lines 83-88) and when evaluating
proposed points inside the loop (lines 115-118): if the objective's
behaviour under the unpacked call agrees with its behaviour under the
packed call at every location (equivalent objectives), then construction
with computed initial values and every run — histories, surrogate
training set, best state, propagated error — coincide between the two
modes, so both modes record the same value for the same location. -/
theorem C5_unpacking_equivalence (C : Config) (h : ∀ v, C.fU v = C.fP v) :
    (∀ raw, BayesOpt.init { C with function_unpack := true } raw none =
      BayesOpt.init { C with function_unpack := false } raw none) ∧
    (∀ (fs : FailSpec) (term : Option TermFn) (st : BOState) (n : ℕ),
      run_optim { C with function_unpack := true } fs st n term =
      run_optim { C with function_unpack := false } fs st n term) := by
  have hstep : ∀ st i, pureStep { C with function_unpack := true } st i =
      pureStep { C with function_unpack := false } st i := by
    intro st i
    simp [pureStep, h]
  have hstepB : ∀ fs term st i, boStep { C with function_unpack := true } fs term st i =
      boStep { C with function_unpack := false } fs term st i := by
    intro fs term st i
    simp [boStep, hstep st i, h]
  have hloop : ∀ (fuel : ℕ) (st : BOState) (i : ℕ) (fs : FailSpec) (term : Option TermFn),
      runLoop { C with function_unpack := true } fs term st i fuel =
      runLoop { C with function_unpack := false } fs term st i fuel := by
    intro fuel
    induction fuel with
    | zero => intros; rfl
    | succ n ih =>
      intro st i fs term
      rw [runLoop_succ, runLoop_succ, hstepB fs term st i, ih]
  constructor
  · intro raw
    unfold BayesOpt.init
    cases htr : transform_data raw with
    | error e => rfl
    | ok X =>
      dsimp only
      have hcalc : calculate_initialY { C with function_unpack := true } X none =
          calculate_initialY { C with function_unpack := false } X none := by
        unfold calculate_initialY
        dsimp only
        congr 1
        apply List.map_congr_left
        intro v _
        simp [h v]
      rw [hcalc]
  · intro fs term st n
    exact hloop n st 0 fs term

/-- Objective used in the C5 witness: the sum of squared coordinates —
the behaviour of `f(x1, x2, ...) = x1**2 + x2**2 + ...` under the
unpacked call and of `f(X) = sum(X**2, axis=1)` under the packed call —
with the acquisition optimizer proposing `[3, 4]`. -/
def sqConf : Config :=
  { acq_optimizer := fun _ _ => ([3, 4], 0)
    fU := fun v => (v.map fun x => x * x).sum
    fP := fun v => (v.map fun x => x * x).sum
    function_unpack := true
    maximize := false }

theorem C5_witness :
    (BayesOpt.init { sqConf with function_unpack := true } (Raw.two [[3, 4]]) none =
      BayesOpt.init { sqConf with function_unpack := false } (Raw.two [[3, 4]]) none) ∧
    (run_optim { sqConf with function_unpack := true } noFail cexSt0 1 none =
      run_optim { sqConf with function_unpack := false } noFail cexSt0 1 none) ∧
    (run_optim { sqConf with function_unpack := true } noFail cexSt0 1 none).1.Y_history =
      [25] :=
  ⟨(C5_unpacking_equivalence sqConf (fun _ => rfl)).1 (Raw.two [[3, 4]]),
   (C5_unpacking_equivalence sqConf (fun _ => rfl)).2 noFail none cexSt0 1,
   by norm_num [run_optim, runLoop, boStep, pureStep, sqConf, cexSt0, noFail,
     updateBest, GPR.append_data]⟩

/-! ### Claim C6 -/

/-- Claim C6: a collaborator failure during an iteration aborts the run
with the error propagated immediately (the loop performs no retry: the
first failing step's state and error are returned as-is), and the
resulting state is a pure prefix of the iteration sequence — History and
the best state are exactly as of the last fully committed iteration, the
history append and the best update belong to the same pure step (hence
are atomic relative to each other), and the two histories never go out
of step (no partial-iteration entry). -/
theorem C6_abort_semantics (C : Config) (fs : FailSpec) (term : Option TermFn)
    (st0 : BOState) (max_iter : ℕ)
    (hbal : st0.X_history.length = st0.Y_history.length) :
    (∃ k ≤ max_iter, (run_optim C fs st0 max_iter term).1 = pureIter C st0 0 k) ∧
    (run_optim C fs st0 max_iter term).1.X_history.length =
      (run_optim C fs st0 max_iter term).1.Y_history.length ∧
    (∀ e, (boStep C fs term st0 0).error = some e →
      run_optim C fs st0 (max_iter + 1) term = ((boStep C fs term st0 0).state, some e)) := by
  obtain ⟨k, hk, heq⟩ := run_optim_pure_trunc C fs term st0 max_iter
  refine ⟨⟨k, hk, heq⟩, ?_, ?_⟩
  · rw [heq]
    have h1 := (pureIter_length C k st0 0).1
    have h2 := (pureIter_length C k st0 0).2
    omega
  · intro e he
    show runLoop C fs term st0 0 (max_iter + 1) = _
    rw [runLoop_succ, he]

theorem C6_witness :
    cexSt0.X_history.length = cexSt0.Y_history.length ∧
    ((∃ k ≤ 3, (run_optim cexConf cexObjFail cexSt0 3 none).1 =
        pureIter cexConf cexSt0 0 k) ∧
      (run_optim cexConf cexObjFail cexSt0 3 none).1.X_history.length =
        (run_optim cexConf cexObjFail cexSt0 3 none).1.Y_history.length ∧
      (∀ e, (boStep cexConf cexObjFail none cexSt0 0).error = some e →
        run_optim cexConf cexObjFail cexSt0 4 none =
          ((boStep cexConf cexObjFail none cexSt0 0).state, some e))) :=
  ⟨rfl, C6_abort_semantics cexConf cexObjFail none cexSt0 3 rfl⟩

/-! ### Claim C7 -/

/-- Claim C7: the surrogate's training set is exactly the initial batch
followed by all History observations, in observation order — at
construction, after every pure iteration prefix (that is, at every point
during any run), and at the end of any run.  Moreover the location
observed at iteration `k` is the one the acquisition optimizer proposes
from the surrogate state after `k` completed iterations (whose training
set, by the invariant, contains the initial batch and observations
`0..k-1`), and it becomes History entry `k`: observation `k` is recorded
strictly before observation `k+1` is proposed. -/
theorem C7_training_set (C : Config) (raw : Raw) (iy : Option (List Val)) (st0 : BOState)
    (hinit : BayesOpt.init C raw iy = Except.ok st0) :
    trainInv st0.gpr.X_train st0.gpr.Y_train st0 ∧
    (∀ k, trainInv st0.gpr.X_train st0.gpr.Y_train (pureIter C st0 0 k)) ∧
    (∀ (fs : FailSpec) (term : Option TermFn) (n : ℕ),
      trainInv st0.gpr.X_train st0.gpr.Y_train ((run_optim C fs st0 n term).1)) ∧
    (∀ k, (pureIter C st0 0 (k + 1)).X_history =
      (pureIter C st0 0 k).X_history ++
        [(C.acq_optimizer (pureIter C st0 0 k).gpr k).1]) := by
  obtain ⟨hX0, hY0, _, _⟩ := init_ok_state C raw iy st0 hinit
  have hbase : trainInv st0.gpr.X_train st0.gpr.Y_train st0 := by
    constructor
    · rw [hX0]
      simp
    · rw [hY0]
      simp
  refine ⟨hbase, ?_, ?_, ?_⟩
  · intro k
    exact pureIter_preserves C (trainInv st0.gpr.X_train st0.gpr.Y_train)
      (trainInv_pureStep C st0.gpr.X_train st0.gpr.Y_train) k st0 0 hbase
  · intro fs term n
    exact run_preserves C fs term st0 n (trainInv st0.gpr.X_train st0.gpr.Y_train)
      (trainInv_pureStep C st0.gpr.X_train st0.gpr.Y_train) hbase
  · intro k
    rw [pureIter_succ_right C k st0 0]
    rw [pureStep_X_history]
    rw [Nat.zero_add]

theorem C7_witness :
    trainInv cexSt0.gpr.X_train cexSt0.gpr.Y_train cexSt0 ∧
    (∀ k, trainInv cexSt0.gpr.X_train cexSt0.gpr.Y_train (pureIter cexConf cexSt0 0 k)) ∧
    (∀ (fs : FailSpec) (term : Option TermFn) (n : ℕ),
      trainInv cexSt0.gpr.X_train cexSt0.gpr.Y_train
        ((run_optim cexConf fs cexSt0 n term).1)) ∧
    (∀ k, (pureIter cexConf cexSt0 0 (k + 1)).X_history =
      (pureIter cexConf cexSt0 0 k).X_history ++
        [(cexConf.acq_optimizer (pureIter cexConf cexSt0 0 k).gpr k).1]) :=
  C7_training_set cexConf (Raw.two [[0]]) (some [0]) cexSt0 rfl

/-! ### Claim C8 -/

/-- Claim C8 as stated is false on the code: the tqdm progress calls at
`bo.py` lines 132-135 sit unguarded in the loop body, so an exception
raised by the progress reporter propagates and aborts the loop — with
`max_iter = 2` and an always-raising reporter, the run returns the
reporter's error after recording only the first iteration's observation,
whereas the claim requires the loop not to abort (two observations). -/
theorem C8_counterexample :
    (run_optim cexConf cexBarFS cexSt0 2 none).2 = some BOError.barErr ∧
    n_trial (run_optim cexConf cexBarFS cexSt0 2 none).1 = 1 ∧ (1 : ℕ) ≠ 2 :=
  ⟨rfl, rfl, by decide⟩

/-- Claim C8 (amended): a failure raised by the progress reporter aborts
the run (it propagates like any other collaborator exception), but it
never corrupts state: the reporter runs only after the iteration's
observation, surrogate append and best update are fully committed, so a
step aborted by the reporter carries exactly the committed pure-step
state, and a run aborted by the reporter ends in a pure iteration prefix
that includes the reporting iteration. -/
theorem C8_bar_failure_state (C : Config) (fs : FailSpec) (term : Option TermFn)
    (st : BOState) (i n : ℕ) (st0 : BOState) :
    ((boStep C fs term st i).error = some BOError.barErr →
      (boStep C fs term st i).state = pureStep C st i) ∧
    ((run_optim C fs st0 n term).2 = some BOError.barErr →
      ∃ k, 1 ≤ k ∧ k ≤ n ∧ (run_optim C fs st0 n term).1 = pureIter C st0 0 k) := by
  have hrun : ∀ (fuel : ℕ) (st1 : BOState) (j : ℕ),
      (runLoop C fs term st1 j fuel).2 = some BOError.barErr →
      ∃ k, 1 ≤ k ∧ k ≤ fuel ∧ (runLoop C fs term st1 j fuel).1 = pureIter C st1 j k := by
    intro fuel
    induction fuel with
    | zero =>
      intro st1 j h
      cases h
    | succ m ih =>
      intro st1 j h
      rw [runLoop_succ] at h ⊢
      rcases herr : (boStep C fs term st1 j).error with _ | e
      · rw [herr] at h
        dsimp only at h ⊢
        by_cases ht : (boStep C fs term st1 j).terminated = true
        · rw [if_pos ht] at h
          cases h
        · rw [if_neg ht] at h ⊢
          obtain ⟨k, hk1, hk2, heq⟩ := ih (boStep C fs term st1 j).state (j + 1) h
          refine ⟨k + 1, by omega, by omega, ?_⟩
          rw [heq, boStep_state_eq_of_error_none C fs term st1 j herr]
          rfl
      · rw [herr] at h
        dsimp only at h ⊢
        have he : e = BOError.barErr := Option.some.inj h
        subst he
        refine ⟨1, le_rfl, by omega, ?_⟩
        rw [boStep_state_eq_of_barErr C fs term st1 j herr]
        rfl
  constructor
  · exact boStep_state_eq_of_barErr C fs term st i
  · exact hrun n st0 0

theorem C8_witness :
    ((boStep cexConf cexBarFS none cexSt0 0).state = pureStep cexConf cexSt0 0) ∧
    ∃ k, 1 ≤ k ∧ k ≤ 2 ∧
      (run_optim cexConf cexBarFS cexSt0 2 none).1 = pureIter cexConf cexSt0 0 k :=
  ⟨(C8_bar_failure_state cexConf cexBarFS none cexSt0 0 2 cexSt0).1 rfl,
   (C8_bar_failure_state cexConf cexBarFS none cexSt0 0 2 cexSt0).2 rfl⟩

/-! ### Claim C9 -/

/-- Claim C9: state persists across `run_optim` calls on the same object
— `run_optim` never resets the histories, the surrogate's training set,
the best state or the iteration count, so a second call of `run_optim m`
continues from the first call's final state: the first run's histories
are prefixes of the second run's, the first run's surrogate training set
(`X_train`/`Y_train`) is a prefix of the second run's (the surrogate is
only ever appended to, never rebuilt), at most `m` further observations
are appended, and the best state, once set, survives the second run and
can only improve in the configured direction. -/
theorem C9_state_persists (C : Config) (fs1 fs2 : FailSpec)
    (term1 term2 : Option TermFn) (st : BOState) (n m : ℕ) :
    ((run_optim C fs1 st n term1).1.X_history <+:
      (run_optim C fs2 (run_optim C fs1 st n term1).1 m term2).1.X_history) ∧
    ((run_optim C fs1 st n term1).1.Y_history <+:
      (run_optim C fs2 (run_optim C fs1 st n term1).1 m term2).1.Y_history) ∧
    ((run_optim C fs1 st n term1).1.gpr.X_train <+:
      (run_optim C fs2 (run_optim C fs1 st n term1).1 m term2).1.gpr.X_train) ∧
    ((run_optim C fs1 st n term1).1.gpr.Y_train <+:
      (run_optim C fs2 (run_optim C fs1 st n term1).1 m term2).1.gpr.Y_train) ∧
    (run_optim C fs2 (run_optim C fs1 st n term1).1 m term2).1.Y_history.length ≤
      (run_optim C fs1 st n term1).1.Y_history.length + m ∧
    ((run_optim C fs1 st n term1).1.best_value.isSome = true →
      (run_optim C fs2 (run_optim C fs1 st n term1).1 m term2).1.best_value.isSome
        = true) ∧
    (∀ b1, (run_optim C fs1 st n term1).1.best_value = some b1 →
      ∃ b2, (run_optim C fs2 (run_optim C fs1 st n term1).1 m term2).1.best_value
          = some b2 ∧
        asGood C.maximize b2 b1) := by
  obtain ⟨k, hk, heq⟩ :=
    run_optim_pure_trunc C fs2 term2 ((run_optim C fs1 st n term1).1) m
  rw [heq]
  refine ⟨(pureIter_extendsHist C k ((run_optim C fs1 st n term1).1) 0).1,
    (pureIter_extendsHist C k ((run_optim C fs1 st n term1).1) 0).2,
    (pureIter_gpr_extends C k ((run_optim C fs1 st n term1).1) 0).1,
    (pureIter_gpr_extends C k ((run_optim C fs1 st n term1).1) 0).2, ?_, ?_, ?_⟩
  · have hl := (pureIter_length C k ((run_optim C fs1 st n term1).1) 0).2
    omega
  · intro hs
    exact pureIter_best_isSome C k ((run_optim C fs1 st n term1).1) 0 hs
  · intro b1 hb1
    exact pureIter_best_mono C k ((run_optim C fs1 st n term1).1) 0 b1 hb1

theorem C9_witness :
    ((run_optim cexConf noFail cexSt0 1 none).1.X_history <+:
      (run_optim cexConf noFail (run_optim cexConf noFail cexSt0 1 none).1 1
        none).1.X_history) ∧
    ((run_optim cexConf noFail cexSt0 1 none).1.Y_history <+:
      (run_optim cexConf noFail (run_optim cexConf noFail cexSt0 1 none).1 1
        none).1.Y_history) ∧
    ((run_optim cexConf noFail cexSt0 1 none).1.gpr.X_train <+:
      (run_optim cexConf noFail (run_optim cexConf noFail cexSt0 1 none).1 1
        none).1.gpr.X_train) ∧
    ((run_optim cexConf noFail cexSt0 1 none).1.gpr.Y_train <+:
      (run_optim cexConf noFail (run_optim cexConf noFail cexSt0 1 none).1 1
        none).1.gpr.Y_train) ∧
    (run_optim cexConf noFail (run_optim cexConf noFail cexSt0 1 none).1 1
        none).1.Y_history.length ≤
      (run_optim cexConf noFail cexSt0 1 none).1.Y_history.length + 1 ∧
    ((run_optim cexConf noFail cexSt0 1 none).1.best_value.isSome = true →
      (run_optim cexConf noFail (run_optim cexConf noFail cexSt0 1 none).1 1
          none).1.best_value.isSome = true) ∧
    (∀ b1, (run_optim cexConf noFail cexSt0 1 none).1.best_value = some b1 →
      ∃ b2, (run_optim cexConf noFail (run_optim cexConf noFail cexSt0 1 none).1 1
          none).1.best_value = some b2 ∧
        asGood cexConf.maximize b2 b1) :=
  C9_state_persists cexConf noFail noFail none none cexSt0 1 1

/-! ### Claim C10 -/

/-- Claim C10: whenever the best state is non-empty after a run from a
freshly constructed object, the exposed best location and best value
form a genuine recorded observation: both were assigned together from
the same iteration's proposed location and observed value, so some
common History index holds exactly that pair. -/
theorem C10_best_is_recorded (C : Config) (raw : Raw) (iy : Option (List Val))
    (st0 : BOState) (fs : FailSpec) (term : Option TermFn) (n : ℕ)
    (hinit : BayesOpt.init C raw iy = Except.ok st0) :
    ∀ b, (run_optim C fs st0 n term).1.best_value = some b →
      ∃ p, (run_optim C fs st0 n term).1.best_params = some p ∧
        ∃ j, (run_optim C fs st0 n term).1.X_history.get? j = some p ∧
          (run_optim C fs st0 n term).1.Y_history.get? j = some b := by
  obtain ⟨hX0, hY0, hbv0, _⟩ := init_ok_state C raw iy st0 hinit
  have hinv : pairedInv ((run_optim C fs st0 n term).1) := by
    apply run_preserves C fs term st0 n pairedInv (pairedInv_pureStep C)
    constructor
    · rw [hX0, hY0]
      rfl
    · intro b hb
      rw [hbv0] at hb
      cases hb
  exact hinv.2

theorem C10_witness :
    ∃ p, (run_optim cexConf noFail cexSt0 1 none).1.best_params = some p ∧
      ∃ j, (run_optim cexConf noFail cexSt0 1 none).1.X_history.get? j = some p ∧
        (run_optim cexConf noFail cexSt0 1 none).1.Y_history.get? j = some 5 :=
  C10_best_is_recorded cexConf (Raw.two [[0]]) (some [0]) cexSt0 noFail none 1 rfl 5 rfl

end BO
